import Mathlib

/-!
Shallow embedding of `src/data/datamodule.py` (PoseNet repository): the
`DataModule` Lightning data module for cervical-spine landmark detection,
its `setup` logic, the training collate function, and the dataloader
factories. Tensors are modelled by their shape together with an abstract
contents identifier; batched tensors record the slices along the leading
(batch) dimension. Python integers are `Nat` (all quantities involved are
non-negative), Python `//` is `Nat` division and `%` is `Nat.mod`.
-/

/-- A single (non-batched) tensor: its shape and an abstract identifier for
its contents. Collation only moves tensors around, so contents stay opaque. -/
structure Tensor where
  shape : List Nat
  data : Nat
deriving DecidableEq, Repr

/-- A tensor whose leading dimension is a batch dimension, kept as the list
of its slices; every slice is expected to have shape `innerShape`. -/
structure Batched where
  innerShape : List Nat
  slices : List Tensor
deriving DecidableEq, Repr

/-- The shape of a batched tensor: batch size followed by the inner shape. -/
def Batched.shape (b : Batched) : List Nat := b.slices.length :: b.innerShape

/-- Model of `torch.empty([0, d1, d2, d3])`: an empty batch with the given
inner shape. -/
def torchEmptyBatch (inner : List Nat) : Batched := ⟨inner, []⟩

/-- Model of `torch.cat((b, t1[None,:], ..., tk[None,:]), dim=0)`: appends the
given tensors as new slices; fails (a runtime shape-mismatch error in torch)
unless every appended tensor has the batch's inner shape. -/
def Batched.catSlices (b : Batched) (ts : List Tensor) : Option Batched :=
  if ∀ t ∈ ts, t.shape = b.innerShape then some ⟨b.innerShape, b.slices ++ ts⟩
  else none

/-- One dataset item as consumed by the training collate function: a pair of
(image, heatmap) pairs, `((x1, y1), (x2, y2))`. -/
abbrev Item := (Tensor × Tensor) × (Tensor × Tensor)

/-- One iteration of the loop body of `collate_fn`: concatenate both images
onto the image batch and both heatmaps onto the label batch. -/
def collateStep (acc : Batched × Batched) : Item → Option (Batched × Batched)
  | ((x1, y1), (x2, y2)) => do
    let images ← acc.1.catSlices [x1, x2]
    let labels ← acc.2.catSlices [y1, y2]
    pure (images, labels)

/-- Model of the training `collate_fn` in `train_dataloader`: starts from
`torch.empty([0,3,256,128])` and `torch.empty([0,24,64,32])` and folds the
loop body over the batch. -/
def collate_fn (batch : List Item) : Option (Batched × Batched) :=
  batch.foldlM collateStep (torchEmptyBatch [3, 256, 128], torchEmptyBatch [24, 64, 32])

/-- The images of a batch in loop order: `x1, x2` of each item in turn. -/
def imgsOf : List Item → List Tensor
  | [] => []
  | ((x1, _), (x2, _)) :: rest => x1 :: x2 :: imgsOf rest

/-- The heatmap labels of a batch in loop order: `y1, y2` of each item. -/
def lblsOf : List Item → List Tensor
  | [] => []
  | ((_, y1), (_, y2)) :: rest => y1 :: y2 :: lblsOf rest

/-- An item whose images have shape 3x256x128 and whose heatmaps have shape
24x64x32, as the collate function hardcodes. -/
def goodItem (it : Item) : Prop :=
  it.1.1.shape = [3, 256, 128] ∧ it.2.1.shape = [3, 256, 128] ∧
  it.1.2.shape = [24, 64, 32] ∧ it.2.2.shape = [24, 64, 32]

instance (it : Item) : Decidable (goodItem it) := by
  unfold goodItem; infer_instance

/-- Step function of a 64-bit linear congruential generator, standing in for
the pseudo-random stream of `torch.Generator().manual_seed(seed)`: a fixed
deterministic function of the generator state. -/
def lcgNext (s : Nat) : Nat := (6364136223846793005 * s + 1442695040888963407) % 2 ^ 64

/-- Draw a pseudo-random permutation of `l` by repeatedly removing the
element at position `state % length`; `fuel` bounds the recursion and is
instantiated with `l.length`, so no element is ever dropped. -/
def permDrawAux : Nat → Nat → List Nat → List Nat
  | 0, _, _ => []
  | _, _, [] => []
  | fuel + 1, s, x :: rest =>
    let l := x :: rest
    let i := s % l.length
    l.get ⟨i, Nat.mod_lt _ (Nat.succ_pos _)⟩ :: permDrawAux fuel (lcgNext s) (l.eraseIdx i)

/-- Model of `torch.randperm(n, generator)` with a seeded generator: a
deterministic pseudo-random permutation of `0, ..., n-1`. -/
def randperm (seed n : Nat) : List Nat := permDrawAux n (lcgNext seed) (List.range n)

/-- Model of the subset-length computation of `torch.utils.data.random_split`
for a fractional length: `floor(frac * n)`. -/
def fracLen (r : ℚ) (n : Nat) : Nat := (⌊r * (n : ℚ)⌋).toNat

/-- Lengths of the two subsets produced by `random_split` with two fractional
lengths: the floors, with the remainder distributed round-robin. -/
def splitLengths2 (r : ℚ × ℚ) (n : Nat) : Nat × Nat :=
  let l1 := fracLen r.1 n
  let l2 := fracLen r.2 n
  let rem := n - (l1 + l2)
  (l1 + (rem + 1) / 2, l2 + rem / 2)

/-- Model of `torch.utils.data.random_split(dataset, (r1, r2), generator)`
with fractional lengths: a permutation of the indices is drawn from the
seeded generator and cut into two consecutive chunks. Returns the index
lists of the two subsets. -/
def random_split2 (n : Nat) (r : ℚ × ℚ) (seed : Nat) : List Nat × List Nat :=
  let ls := splitLengths2 r n
  let idx := randperm seed (ls.1 + ls.2)
  (idx.take ls.1, (idx.drop ls.1).take ls.2)

/-- Model of `torch.utils.data.Subset`: a view of a base dataset (kept
abstract as its size) through a list of indices. -/
structure Subset where
  baseSize : Nat
  indices : List Nat
deriving DecidableEq, Repr

/-- Modelled from the spec: `CervicalDataset` is defined in
`src/data/components/dataset.py`, which is not among the provided sources.
Per the spec data model it wraps a split subset, a mode tag (`train`, `val`
or `test`) and an optional transform pipeline; transforms are kept abstract
as identifiers. -/
structure CervicalDataset where
  dataset : Subset
  mode : String
  transform : Option Nat
deriving DecidableEq, Repr

/-- The constructor hyperparameters saved by `save_hyperparameters`. -/
structure Hparams where
  train_test_split : ℚ × ℚ
  train_batch_size : Nat
  test_batch_size : Nat
  num_workers : Nat
  pin_memory : Bool
deriving DecidableEq, Repr

/-- The part of the Lightning trainer visible to `setup`: its world size
(number of devices). -/
structure Trainer where
  world_size : Nat
deriving DecidableEq, Repr

/-- State of a `DataModule` instance. -/
structure DataModule where
  hparams : Hparams
  train_transforms : Option Nat
  test_transforms : Option Nat
  data_train : Option CervicalDataset
  data_val : Option CervicalDataset
  data_test : Option CervicalDataset
  train_batch_size_per_device : Nat
  test_batch_size_per_device : Nat
  trainer : Option Trainer
deriving DecidableEq, Repr

/-- Model of `DataModule.__init__`: transforms are stored, the dataset
fields start as `None`, and the per-device batch sizes start as the
configured batch sizes. -/
def DataModule.init (train_test_split : ℚ × ℚ)
    (train_batch_size test_batch_size num_workers : Nat)
    (train_transforms test_transforms : Option Nat) (pin_memory : Bool)
    (trainer : Option Trainer) : DataModule :=
  { hparams := ⟨train_test_split, train_batch_size, test_batch_size, num_workers, pin_memory⟩
    train_transforms := train_transforms
    test_transforms := test_transforms
    data_train := none
    data_val := none
    data_test := none
    train_batch_size_per_device := train_batch_size
    test_batch_size_per_device := test_batch_size
    trainer := trainer }

/-- Model of `DataModule.num_classes`. -/
def DataModule.num_classes (_ : DataModule) : Nat := 23

/-- Second half of `setup`: load and split the datasets only if not loaded
already. The Python guard is `not data_train and not data_val and not
data_test`; that the constructed datasets are truthy is modelled from the
spec (data already loaded means the fields are set), since
`CervicalDataset` is outside the provided sources. `baseSize` is the length
of the external `BaseDataset()`. -/
def loadData (baseSize : Nat) (m : DataModule) : DataModule :=
  if m.data_train.isNone ∧ m.data_val.isNone ∧ m.data_test.isNone then
    let split := random_split2 baseSize m.hparams.train_test_split 42
    let trainset : Subset := ⟨baseSize, split.1⟩
    let testset : Subset := ⟨baseSize, split.2⟩
    { m with
      data_train := some ⟨trainset, "train", m.train_transforms⟩
      data_val := some ⟨testset, "val", m.test_transforms⟩
      data_test := some ⟨testset, "test", m.test_transforms⟩ }
  else m

/-- Model of `DataModule.setup`, mirroring the statement order of the Python
method: when a trainer is attached, first check divisibility of the training
batch size by the world size (raising `RuntimeError` leaves the module state
untouched), then set the per-device batch sizes, then load the datasets.
Returns the resulting state together with the raised error, if any. -/
def DataModule.setup (baseSize : Nat) (m : DataModule) : DataModule × Option String :=
  match m.trainer with
  | some t =>
    if m.hparams.train_batch_size % t.world_size ≠ 0 then
      (m, some "Batch size is not divisible by the number of devices.")
    else
      (loadData baseSize
        { m with
          train_batch_size_per_device := m.hparams.train_batch_size / t.world_size
          test_batch_size_per_device := m.hparams.test_batch_size / t.world_size }, none)
  | none => (loadData baseSize m, none)

/-- Model of `DataModule.state_dict`: the empty dictionary. -/
def DataModule.state_dict (_ : DataModule) : List (String × Nat) := []

/-- Model of `DataModule.load_state_dict`: a no-op. -/
def DataModule.load_state_dict (m : DataModule) (_ : List (String × Nat)) : DataModule := m

/-- Configuration of a constructed `DataLoader`, as passed by the three
dataloader factories. -/
structure DataLoaderCfg where
  dataset : Option CervicalDataset
  batch_size : Nat
  num_workers : Nat
  pin_memory : Bool
  shuffle : Bool
deriving DecidableEq, Repr

/-- Model of `DataModule.val_dataloader`. -/
def DataModule.val_dataloader (m : DataModule) : DataLoaderCfg :=
  ⟨m.data_val, m.test_batch_size_per_device, m.hparams.num_workers, m.hparams.pin_memory, false⟩

/-- Model of `DataModule.test_dataloader`. -/
def DataModule.test_dataloader (m : DataModule) : DataLoaderCfg :=
  ⟨m.data_test, m.test_batch_size_per_device, m.hparams.num_workers, m.hparams.pin_memory, false⟩

/-- Model of `DataModule.train_dataloader` (its collate function is the
global `collate_fn` above). -/
def DataModule.train_dataloader (m : DataModule) : DataLoaderCfg :=
  ⟨m.data_train, m.train_batch_size_per_device, m.hparams.num_workers, m.hparams.pin_memory, true⟩

/-- A module as built by `DataModule.__init__` with its default
hyperparameters, optionally attached to a trainer. -/
def sampleModule (trainer : Option Trainer) : DataModule :=
  DataModule.init (9 / 10, 1 / 10) 32 64 4 none none false trainer

/-! Helper lemmas about the collate function. -/

theorem imgsOf_length (batch : List Item) : (imgsOf batch).length = 2 * batch.length := by
  induction batch with
  | nil => simp [imgsOf]
  | cons it rest ih =>
    obtain ⟨⟨x1, y1⟩, x2, y2⟩ := it
    simp [imgsOf, ih]
    ring

theorem lblsOf_length (batch : List Item) : (lblsOf batch).length = 2 * batch.length := by
  induction batch with
  | nil => simp [lblsOf]
  | cons it rest ih =>
    obtain ⟨⟨x1, y1⟩, x2, y2⟩ := it
    simp [lblsOf, ih]
    ring

theorem collate_fold (batch : List Item) (h : ∀ it ∈ batch, goodItem it)
    (acc1 acc2 : List Tensor) :
    batch.foldlM collateStep (⟨[3, 256, 128], acc1⟩, ⟨[24, 64, 32], acc2⟩)
      = some (⟨[3, 256, 128], acc1 ++ imgsOf batch⟩, ⟨[24, 64, 32], acc2 ++ lblsOf batch⟩) := by
  induction batch generalizing acc1 acc2 with
  | nil => simp [imgsOf, lblsOf]
  | cons it rest ih =>
    obtain ⟨⟨x1, y1⟩, x2, y2⟩ := it
    obtain ⟨g1, g2, g3, g4⟩ := h _ (List.mem_cons_self _ _)
    have hrest : ∀ x ∈ rest, goodItem x := fun x hx => h x (List.mem_cons_of_mem _ hx)
    simp only [List.foldlM_cons, collateStep, Batched.catSlices]
    rw [if_pos, if_pos]
    · simp only [Option.pure_def, Option.bind_eq_bind, Option.some_bind]
      rw [ih hrest]
      simp [imgsOf, lblsOf]
    · intro t ht
      simp only [List.mem_cons, List.mem_singleton] at ht
      rcases ht with rfl | rfl | h0
      · exact g3
      · exact g4
      · cases h0
    · intro t ht
      simp only [List.mem_cons, List.mem_singleton] at ht
      rcases ht with rfl | rfl | h0
      · exact g1
      · exact g2
      · cases h0

theorem imgsOf_get (batch : List Item) (i : Nat) (hi : i < batch.length) :
    (imgsOf batch)[2 * i]? = some (batch.get ⟨i, hi⟩).1.1 ∧
    (imgsOf batch)[2 * i + 1]? = some (batch.get ⟨i, hi⟩).2.1 := by
  induction batch generalizing i with
  | nil => cases hi
  | cons it rest ih =>
    obtain ⟨⟨x1, y1⟩, x2, y2⟩ := it
    cases i with
    | zero => simp [imgsOf]
    | succ j =>
      have hj : j < rest.length := Nat.lt_of_succ_lt_succ hi
      have h2 : 2 * (j + 1) = 2 * j + 1 + 1 := by ring
      have h3 : 2 * (j + 1) + 1 = 2 * j + 1 + 1 + 1 := by ring
      rw [h3, h2]
      simpa [imgsOf] using ih j hj

theorem lblsOf_get (batch : List Item) (i : Nat) (hi : i < batch.length) :
    (lblsOf batch)[2 * i]? = some (batch.get ⟨i, hi⟩).1.2 ∧
    (lblsOf batch)[2 * i + 1]? = some (batch.get ⟨i, hi⟩).2.2 := by
  induction batch generalizing i with
  | nil => cases hi
  | cons it rest ih =>
    obtain ⟨⟨x1, y1⟩, x2, y2⟩ := it
    cases i with
    | zero => simp [lblsOf]
    | succ j =>
      have hj : j < rest.length := Nat.lt_of_succ_lt_succ hi
      have h2 : 2 * (j + 1) = 2 * j + 1 + 1 := by ring
      have h3 : 2 * (j + 1) + 1 = 2 * j + 1 + 1 + 1 := by ring
      rw [h3, h2]
      simpa [lblsOf] using ih j hj

/-- C1: for every batch of N items whose image tensors have shape 3x256x128
and whose heatmap tensors have shape 24x64x32, `collate_fn` succeeds with an
image tensor of shape (2N, 3, 256, 128) and a heatmap tensor of shape
(2N, 24, 64, 32), and the two members of the i-th input pair sit at batch
positions 2i and 2i+1 in input order. -/
theorem collate_fn_spec (batch : List Item) (h : ∀ it ∈ batch, goodItem it) :
    ∃ imgs lbls, collate_fn batch = some (imgs, lbls) ∧
      imgs.shape = [2 * batch.length, 3, 256, 128] ∧
      lbls.shape = [2 * batch.length, 24, 64, 32] ∧
      ∀ i, (hi : i < batch.length) →
        imgs.slices[2 * i]? = some (batch.get ⟨i, hi⟩).1.1 ∧
        imgs.slices[2 * i + 1]? = some (batch.get ⟨i, hi⟩).2.1 ∧
        lbls.slices[2 * i]? = some (batch.get ⟨i, hi⟩).1.2 ∧
        lbls.slices[2 * i + 1]? = some (batch.get ⟨i, hi⟩).2.2 := by
  refine ⟨⟨[3, 256, 128], imgsOf batch⟩, ⟨[24, 64, 32], lblsOf batch⟩, ?_, ?_, ?_, ?_⟩
  · have := collate_fold batch h [] []
    simpa [collate_fn, torchEmptyBatch] using this
  · simp [Batched.shape, imgsOf_length]
  · simp [Batched.shape, lblsOf_length]
  · intro i hi
    exact ⟨(imgsOf_get batch i hi).1, (imgsOf_get batch i hi).2,
      (lblsOf_get batch i hi).1, (lblsOf_get batch i hi).2⟩

/-- Concrete one-item batch used to witness the collate theorem. -/
def batch0 : List Item :=
  [((⟨[3, 256, 128], 0⟩, ⟨[24, 64, 32], 1⟩), (⟨[3, 256, 128], 2⟩, ⟨[24, 64, 32], 3⟩))]

/-- Witness for C1 at a concrete one-item batch. -/
theorem collate_fn_spec_witness :
    (∀ it ∈ batch0, goodItem it) ∧
    (∃ imgs lbls, collate_fn batch0 = some (imgs, lbls) ∧
      imgs.shape = [2 * batch0.length, 3, 256, 128] ∧
      lbls.shape = [2 * batch0.length, 24, 64, 32] ∧
      ∀ i, (hi : i < batch0.length) →
        imgs.slices[2 * i]? = some (batch0.get ⟨i, hi⟩).1.1 ∧
        imgs.slices[2 * i + 1]? = some (batch0.get ⟨i, hi⟩).2.1 ∧
        lbls.slices[2 * i]? = some (batch0.get ⟨i, hi⟩).1.2 ∧
        lbls.slices[2 * i + 1]? = some (batch0.get ⟨i, hi⟩).2.2) :=
  ⟨by decide, collate_fn_spec batch0 (by decide)⟩

/-- C8: on the empty batch, `collate_fn` succeeds and returns an image tensor
of shape (0, 3, 256, 128) and a heatmap tensor of shape (0, 24, 64, 32). -/
theorem collate_fn_empty :
    ∃ p, collate_fn [] = some p ∧
      p.1.shape = [0, 3, 256, 128] ∧ p.2.shape = [0, 24, 64, 32] :=
  ⟨(⟨[3, 256, 128], []⟩, ⟨[24, 64, 32], []⟩), rfl, rfl, rfl⟩

/-- C5: `num_classes` returns the constant 23 for every module state,
whatever the configuration. -/
theorem num_classes_constant (m : DataModule) : m.num_classes = 23 := rfl

/-- C6: `state_dict` returns the empty dictionary and feeding its result to
`load_state_dict` leaves the module state unchanged. -/
theorem state_dict_roundtrip (m : DataModule) :
    m.state_dict = [] ∧ m.load_state_dict m.state_dict = m := ⟨rfl, rfl⟩

/-! Helper lemmas about `loadData` and `setup`. -/

theorem loadData_train_bs (baseSize : Nat) (m : DataModule) :
    (loadData baseSize m).train_batch_size_per_device = m.train_batch_size_per_device := by
  unfold loadData; split <;> rfl

theorem loadData_test_bs (baseSize : Nat) (m : DataModule) :
    (loadData baseSize m).test_batch_size_per_device = m.test_batch_size_per_device := by
  unfold loadData; split <;> rfl

theorem loadData_already (baseSize : Nat) (m : DataModule) (a b c : CervicalDataset)
    (g1 : m.data_train = some a) (g2 : m.data_val = some b) (g3 : m.data_test = some c) :
    loadData baseSize m = m := by
  unfold loadData
  rw [if_neg]
  simp [g1, g2, g3]

theorem loadData_fresh (baseSize : Nat) (m : DataModule)
    (h1 : m.data_train = none) (h2 : m.data_val = none) (h3 : m.data_test = none) :
    loadData baseSize m = { m with
      data_train := some ⟨⟨baseSize, (random_split2 baseSize m.hparams.train_test_split 42).1⟩,
        "train", m.train_transforms⟩
      data_val := some ⟨⟨baseSize, (random_split2 baseSize m.hparams.train_test_split 42).2⟩,
        "val", m.test_transforms⟩
      data_test := some ⟨⟨baseSize, (random_split2 baseSize m.hparams.train_test_split 42).2⟩,
        "test", m.test_transforms⟩ } := by
  unfold loadData
  rw [if_pos]
  simp [h1, h2, h3]

/-- C2: with a trainer attached whose world size is `W > 0`, `setup` raises
its configuration error exactly when `W` does not divide the configured
training batch size; when it does divide, no error is raised and the
per-device training batch size becomes the configured size divided by `W`. -/
theorem setup_train_divisibility (baseSize : Nat) (m : DataModule) (W : Nat) (hW : 0 < W)
    (ht : m.trainer = some ⟨W⟩) :
    ((m.setup baseSize).2.isSome ↔ ¬ W ∣ m.hparams.train_batch_size) ∧
    (W ∣ m.hparams.train_batch_size →
      (m.setup baseSize).2 = none ∧
      (m.setup baseSize).1.train_batch_size_per_device = m.hparams.train_batch_size / W) := by
  have hmod : W ∣ m.hparams.train_batch_size ↔ m.hparams.train_batch_size % W = 0 :=
    Nat.dvd_iff_mod_eq_zero
  obtain ⟨hp, t1, t2, d1, d2, d3, b1, b2, tr⟩ := m
  simp only [DataModule.trainer] at ht
  subst ht
  unfold DataModule.setup
  dsimp only
  by_cases h : hp.train_batch_size % W = 0
  · rw [if_neg (by simpa using h)]
    refine ⟨by simpa [hmod] using h, fun _ => ⟨rfl, by simp [loadData_train_bs]⟩⟩
  · rw [if_pos (by simpa using h)]
    exact ⟨by simpa [hmod] using h, fun hd => absurd (hmod.mp hd) h⟩

/-- Witness for C2: default configuration (training batch size 32) under a
trainer with world size 4. -/
theorem setup_train_divisibility_witness :
    0 < 4 ∧ (sampleModule (some ⟨4⟩)).trainer = some ⟨4⟩ ∧
    ((((sampleModule (some ⟨4⟩)).setup 3).2.isSome ↔
        ¬ 4 ∣ (sampleModule (some ⟨4⟩)).hparams.train_batch_size) ∧
      (4 ∣ (sampleModule (some ⟨4⟩)).hparams.train_batch_size →
        ((sampleModule (some ⟨4⟩)).setup 3).2 = none ∧
        ((sampleModule (some ⟨4⟩)).setup 3).1.train_batch_size_per_device =
          (sampleModule (some ⟨4⟩)).hparams.train_batch_size / 4)) :=
  ⟨by decide, rfl, setup_train_divisibility 3 (sampleModule (some ⟨4⟩)) 4 (by decide) rfl⟩

/-- C3: if the three dataset partitions are already constructed, `setup`
leaves `data_train`, `data_val` and `data_test` unchanged. -/
theorem setup_idempotent (baseSize : Nat) (m : DataModule) (a b c : CervicalDataset)
    (h1 : m.data_train = some a) (h2 : m.data_val = some b) (h3 : m.data_test = some c) :
    (m.setup baseSize).1.data_train = some a ∧
    (m.setup baseSize).1.data_val = some b ∧
    (m.setup baseSize).1.data_test = some c := by
  obtain ⟨hp, t1, t2, d1, d2, d3, b1, b2, tr⟩ := m
  simp only [DataModule.data_train, DataModule.data_val, DataModule.data_test] at h1 h2 h3
  subst h1 h2 h3
  unfold DataModule.setup
  cases tr with
  | none =>
    dsimp only
    rw [loadData_already _ _ a b c rfl rfl rfl]
    exact ⟨rfl, rfl, rfl⟩
  | some t =>
    dsimp only
    by_cases h : hp.train_batch_size % t.world_size ≠ 0
    · rw [if_pos h]
      exact ⟨rfl, rfl, rfl⟩
    · rw [if_neg h]
      rw [loadData_already _ _ a b c rfl rfl rfl]
      exact ⟨rfl, rfl, rfl⟩

/-- Concrete already-loaded datasets for the idempotence witness. -/
def dsA : CervicalDataset := ⟨⟨2, [0]⟩, "train", none⟩

def dsB : CervicalDataset := ⟨⟨2, [1]⟩, "val", none⟩

def dsC : CervicalDataset := ⟨⟨2, [1]⟩, "test", none⟩

/-- A module whose partitions are already constructed. -/
def loadedModule : DataModule :=
  { sampleModule none with data_train := some dsA, data_val := some dsB, data_test := some dsC }

/-- Witness for C3: a second `setup` on an already-loaded module keeps the
same partitions. -/
theorem setup_idempotent_witness :
    loadedModule.data_train = some dsA ∧ loadedModule.data_val = some dsB ∧
    loadedModule.data_test = some dsC ∧
    ((loadedModule.setup 5).1.data_train = some dsA ∧
      (loadedModule.setup 5).1.data_val = some dsB ∧
      (loadedModule.setup 5).1.data_test = some dsC) :=
  ⟨rfl, rfl, rfl, setup_idempotent 5 loadedModule dsA dsB dsC rfl rfl rfl⟩

/-- C9: whenever `setup` raises the divisibility error, the three dataset
partition fields are exactly as they were before the call. -/
theorem setup_atomic_on_error (baseSize : Nat) (m : DataModule)
    (herr : (m.setup baseSize).2.isSome) :
    (m.setup baseSize).1.data_train = m.data_train ∧
    (m.setup baseSize).1.data_val = m.data_val ∧
    (m.setup baseSize).1.data_test = m.data_test := by
  obtain ⟨hp, t1, t2, d1, d2, d3, b1, b2, tr⟩ := m
  unfold DataModule.setup at herr ⊢
  cases tr with
  | none => simp at herr
  | some t =>
    dsimp only at herr ⊢
    by_cases h : hp.train_batch_size % t.world_size ≠ 0
    · rw [if_pos h]
      exact ⟨rfl, rfl, rfl⟩
    · rw [if_neg h] at herr
      simp at herr

/-- Witness for C9: training batch size 32 under world size 5 raises, and
the partitions stay `none`. -/
theorem setup_atomic_on_error_witness :
    ((sampleModule (some ⟨5⟩)).setup 3).2.isSome ∧
    (((sampleModule (some ⟨5⟩)).setup 3).1.data_train = (sampleModule (some ⟨5⟩)).data_train ∧
      ((sampleModule (some ⟨5⟩)).setup 3).1.data_val = (sampleModule (some ⟨5⟩)).data_val ∧
      ((sampleModule (some ⟨5⟩)).setup 3).1.data_test = (sampleModule (some ⟨5⟩)).data_test) :=
  ⟨by decide, setup_atomic_on_error 3 (sampleModule (some ⟨5⟩)) (by decide)⟩

/-- C7: the evaluation (test) batch size is never validated: with a trainer
of world size `W > 0`, whether `setup` raises depends only on the training
batch size, and when no error is raised the per-device evaluation batch size
is the floor of the configured evaluation batch size divided by `W`, even
when `W` does not divide it. -/
theorem setup_eval_bs_unvalidated (baseSize : Nat) (m : DataModule) (W : Nat) (hW : 0 < W)
    (ht : m.trainer = some ⟨W⟩) :
    ((m.setup baseSize).2.isSome ↔ ¬ W ∣ m.hparams.train_batch_size) ∧
    ((m.setup baseSize).2 = none →
      (m.setup baseSize).1.test_batch_size_per_device = m.hparams.test_batch_size / W) := by
  have hmod : W ∣ m.hparams.train_batch_size ↔ m.hparams.train_batch_size % W = 0 :=
    Nat.dvd_iff_mod_eq_zero
  obtain ⟨hp, t1, t2, d1, d2, d3, b1, b2, tr⟩ := m
  simp only [DataModule.trainer] at ht
  subst ht
  unfold DataModule.setup
  dsimp only
  by_cases h : hp.train_batch_size % W = 0
  · rw [if_neg (by simpa using h)]
    exact ⟨by simpa [hmod] using h, fun _ => by simp [loadData_test_bs]⟩
  · rw [if_pos (by simpa using h)]
    exact ⟨by simpa [hmod] using h, fun hnone => by cases hnone⟩

/-- A module with an evaluation batch size (10) that world size 4 does not
divide, used to witness C7. -/
def sampleModuleC : DataModule :=
  DataModule.init (9 / 10, 1 / 10) 32 10 4 none none false (some ⟨4⟩)

/-- Witness for C7: evaluation batch size 10 under world size 4 raises no
error and is adjusted to 10 / 4 = 2. -/
theorem setup_eval_bs_unvalidated_witness :
    0 < 4 ∧ sampleModuleC.trainer = some ⟨4⟩ ∧
    (((sampleModuleC.setup 3).2.isSome ↔ ¬ 4 ∣ sampleModuleC.hparams.train_batch_size) ∧
      ((sampleModuleC.setup 3).2 = none →
        (sampleModuleC.setup 3).1.test_batch_size_per_device =
          sampleModuleC.hparams.test_batch_size / 4)) :=
  ⟨by decide, rfl, setup_eval_bs_unvalidated 3 sampleModuleC 4 (by decide) rfl⟩

/-- C10: after a successful dataset-constructing `setup`, the validation and
test datasets wrap the same split subset and the same transform pipeline,
differing only in their mode, and the validation and test dataloaders are
handed exactly those two datasets. -/
theorem val_test_same_partition (baseSize : Nat) (m : DataModule)
    (h1 : m.data_train = none) (h2 : m.data_val = none) (h3 : m.data_test = none)
    (hok : (m.setup baseSize).2 = none) :
    ∃ dv dt, (m.setup baseSize).1.data_val = some dv ∧
      (m.setup baseSize).1.data_test = some dt ∧
      dv.dataset = dt.dataset ∧ dv.transform = dt.transform ∧
      dv.mode = "val" ∧ dt.mode = "test" ∧
      (m.setup baseSize).1.val_dataloader.dataset = some dv ∧
      (m.setup baseSize).1.test_dataloader.dataset = some dt := by
  obtain ⟨hp, t1, t2, d1, d2, d3, b1, b2, tr⟩ := m
  simp only [DataModule.data_train, DataModule.data_val, DataModule.data_test] at h1 h2 h3
  subst h1 h2 h3
  unfold DataModule.setup at hok ⊢
  cases tr with
  | none =>
    dsimp only
    rw [loadData_fresh _ _ rfl rfl rfl]
    exact ⟨_, _, rfl, rfl, rfl, rfl, rfl, rfl, rfl, rfl⟩
  | some t =>
    dsimp only at hok ⊢
    by_cases h : hp.train_batch_size % t.world_size ≠ 0
    · rw [if_pos h] at hok
      cases hok
    · rw [if_neg h]
      rw [loadData_fresh _ _ rfl rfl rfl]
      exact ⟨_, _, rfl, rfl, rfl, rfl, rfl, rfl, rfl, rfl⟩

/-- Witness for C10: a fresh default module with no trainer, base dataset of
size 2. -/
theorem val_test_same_partition_witness :
    (sampleModule none).data_train = none ∧ (sampleModule none).data_val = none ∧
    (sampleModule none).data_test = none ∧ ((sampleModule none).setup 2).2 = none ∧
    (∃ dv dt, ((sampleModule none).setup 2).1.data_val = some dv ∧
      ((sampleModule none).setup 2).1.data_test = some dt ∧
      dv.dataset = dt.dataset ∧ dv.transform = dt.transform ∧
      dv.mode = "val" ∧ dt.mode = "test" ∧
      ((sampleModule none).setup 2).1.val_dataloader.dataset = some dv ∧
      ((sampleModule none).setup 2).1.test_dataloader.dataset = some dt) :=
  ⟨rfl, rfl, rfl, rfl, val_test_same_partition 2 (sampleModule none) rfl rfl rfl rfl⟩

/-! Permutation properties of the modelled `randperm`. -/

theorem permDrawAux_perm (fuel : Nat) : ∀ (s : Nat) (l : List Nat), l.length ≤ fuel →
    (permDrawAux fuel s l).Perm l := by
  induction fuel with
  | zero =>
    intro s l h
    have hl : l = [] := List.eq_nil_of_length_eq_zero (Nat.le_zero.mp h)
    subst hl
    simp [permDrawAux]
  | succ fuel ih =>
    intro s l h
    cases l with
    | nil => simp [permDrawAux]
    | cons x rest =>
      have hi : s % (x :: rest).length < (x :: rest).length :=
        Nat.mod_lt _ (Nat.succ_pos _)
      have hlen : ((x :: rest).eraseIdx (s % (x :: rest).length)).length ≤ fuel := by
        have := List.length_eraseIdx_add_one hi
        simp only [List.length_cons] at h this ⊢
        omega
      have hperm := ih (lcgNext s) ((x :: rest).eraseIdx (s % (x :: rest).length)) hlen
      have h1 : (x :: rest).Perm
          ((x :: rest)[s % (x :: rest).length] :: ((x :: rest).erase (x :: rest)[s % (x :: rest).length])) :=
        List.perm_cons_erase (List.getElem_mem hi)
      have h2 := List.erase_getElem hi
      show ((x :: rest).get ⟨s % (x :: rest).length, hi⟩ ::
        permDrawAux fuel (lcgNext s) ((x :: rest).eraseIdx (s % (x :: rest).length))).Perm (x :: rest)
      rw [List.get_eq_getElem]
      exact ((hperm.trans h2.symm).cons _).trans h1.symm

theorem randperm_nodup (seed n : Nat) : (randperm seed n).Nodup := by
  have hperm := permDrawAux_perm n (lcgNext seed) (List.range n) (by simp)
  exact hperm.symm.nodup (List.nodup_range n)

theorem random_split2_disjoint (n : Nat) (r : ℚ × ℚ) (seed : Nat) :
    List.Disjoint (random_split2 n r seed).1 (random_split2 n r seed).2 := by
  unfold random_split2
  dsimp only
  intro a ha hb
  have hnd := randperm_nodup seed ((splitLengths2 r n).1 + (splitLengths2 r n).2)
  have hd := List.disjoint_take_drop hnd (le_refl (splitLengths2 r n).1)
  exact hd ha (List.take_subset _ _ hb)

/-- C4: partitioning is reproducible and disjoint: two fresh modules with
the same split ratio, set up over the same base dataset, obtain exactly the
same train and evaluation index membership (the split uses the fixed seed
42), and the train indices are disjoint from the evaluation indices. -/
theorem split_reproducible_disjoint (baseSize : Nat) (m1 m2 : DataModule)
    (hr : m1.hparams.train_test_split = m2.hparams.train_test_split)
    (f1a : m1.data_train = none) (f1b : m1.data_val = none) (f1c : m1.data_test = none)
    (f2a : m2.data_train = none) (f2b : m2.data_val = none) (f2c : m2.data_test = none)
    (t1 : m1.trainer = none) (t2 : m2.trainer = none) :
    ∃ tr1 v1 tr2 v2,
      (m1.setup baseSize).1.data_train = some tr1 ∧ (m1.setup baseSize).1.data_val = some v1 ∧
      (m2.setup baseSize).1.data_train = some tr2 ∧ (m2.setup baseSize).1.data_val = some v2 ∧
      tr1.dataset.indices = tr2.dataset.indices ∧ v1.dataset.indices = v2.dataset.indices ∧
      List.Disjoint tr1.dataset.indices v1.dataset.indices := by
  obtain ⟨hp1, a1, a2, d1, d2, d3, b1, b2, tra⟩ := m1
  obtain ⟨hp2, c1, c2, e1, e2, e3, g1, g2, trb⟩ := m2
  simp only [DataModule.data_train, DataModule.data_val, DataModule.data_test,
    DataModule.trainer, DataModule.hparams] at hr f1a f1b f1c f2a f2b f2c t1 t2
  subst f1a f1b f1c f2a f2b f2c t1 t2
  unfold DataModule.setup
  dsimp only
  rw [loadData_fresh _ _ rfl rfl rfl, loadData_fresh _ _ rfl rfl rfl]
  refine ⟨_, _, _, _, rfl, rfl, rfl, rfl, ?_, ?_, ?_⟩
  · dsimp only
    rw [hr]
  · dsimp only
    rw [hr]
  · exact random_split2_disjoint baseSize hp1.train_test_split 42

/-- A second fresh module differing from `sampleModule none` in its training
batch size, for the reproducibility witness. -/
def sampleModuleB : DataModule :=
  DataModule.init (9 / 10, 1 / 10) 16 64 4 none none false none

/-- Witness for C4: two fresh modules with equal split ratios but different
batch sizes over a base dataset of size 2. -/
theorem split_reproducible_disjoint_witness :
    (sampleModule none).hparams.train_test_split = sampleModuleB.hparams.train_test_split ∧
    (sampleModule none).data_train = none ∧ (sampleModule none).data_val = none ∧
    (sampleModule none).data_test = none ∧ sampleModuleB.data_train = none ∧
    sampleModuleB.data_val = none ∧ sampleModuleB.data_test = none ∧
    (sampleModule none).trainer = none ∧ sampleModuleB.trainer = none ∧
    (∃ tr1 v1 tr2 v2,
      ((sampleModule none).setup 2).1.data_train = some tr1 ∧
      ((sampleModule none).setup 2).1.data_val = some v1 ∧
      (sampleModuleB.setup 2).1.data_train = some tr2 ∧
      (sampleModuleB.setup 2).1.data_val = some v2 ∧
      tr1.dataset.indices = tr2.dataset.indices ∧ v1.dataset.indices = v2.dataset.indices ∧
      List.Disjoint tr1.dataset.indices v1.dataset.indices) :=
  ⟨rfl, rfl, rfl, rfl, rfl, rfl, rfl, rfl, rfl,
    split_reproducible_disjoint 2 (sampleModule none) sampleModuleB rfl
      rfl rfl rfl rfl rfl rfl rfl rfl⟩
